import Mathlib

/-!
Verification development for the AutoGLM-with-ASR repository.

Part 1 models `src/phone_agent/model/client.py` (the streaming response
splitter `ModelClient.request` and the parser `ModelClient._parse_response`).
Part 2 models `src/phone_agent/asr.py` (the realtime transcription session
`RealtimeASRClient.transcribe_once` and its callbacks).

Text is embedded as `List Char`; Python string methods used by the source
(`in`, `split(sep, 1)`, `startswith`, slicing `[-n:]`, `strip`, `replace`,
`lower`, `" ".join`) are given as executable Lean functions below, restricted
to the ASCII behaviour the source relies on.
-/

abbrev Str := List Char

/-- Python `pat in s` (substring test). `"" in s` is `True`. -/
def occurs (pat : Str) : Str → Bool
  | [] => pat.isEmpty
  | c :: t => pat.isPrefixOf (c :: t) || occurs pat t

/-- Python `s.split(pat, 1)` when `pat` occurs: `some (before, after)` at the
first occurrence, with the separator removed; `none` when `pat` is absent. -/
def splitOnceAux (pat : Str) : Str → Option (Str × Str)
  | [] => if pat.isPrefixOf ([] : Str) then some ([], []) else none
  | c :: t =>
    if pat.isPrefixOf (c :: t) then some ([], (c :: t).drop pat.length)
    else
      match splitOnceAux pat t with
      | some (pre, post) => some (c :: pre, post)
      | none => none

/-- ASCII-whitespace test matching the characters Python `str.strip()`
removes on the inputs this program handles. -/
def pyIsSpace (c : Char) : Bool :=
  c = ' ' || c = '\t' || c = '\n' || c = '\r' || c = Char.ofNat 11 || c = Char.ofNat 12

/-- Python `s.strip()` (ASCII whitespace). -/
def strip (s : Str) : Str :=
  ((s.dropWhile pyIsSpace).reverse.dropWhile pyIsSpace).reverse

/-- Worker for `replaceAll`; the fuel is an upper bound on the number of
characters still to be consumed, so recursion is structural. -/
def replaceAllFuel (pat rep : Str) : Nat → Str → Str
  | 0, s => s
  | _, [] => []
  | Nat.succ f, c :: t =>
    if !pat.isEmpty && pat.isPrefixOf (c :: t) then
      rep ++ replaceAllFuel pat rep f ((c :: t).drop pat.length)
    else
      c :: replaceAllFuel pat rep f t

/-- Python `s.replace(pat, rep)` for a non-empty `pat` (all occurrences,
left to right, no rescanning of the replacement). -/
def replaceAll (pat rep : Str) (s : Str) : Str :=
  replaceAllFuel pat rep s.length s

/-- Python `buffer[-n:]` (last `n` characters; the whole string when `n = 0`
because Python turns `-0` into `0`). -/
def pyTail (n : Nat) (s : Str) : Str :=
  if n = 0 then s else s.drop (s.length - n)

/-- Python `s.lower()` (ASCII). -/
def lowerStr (s : Str) : Str := s.map Char.toLower

/-- The literal `"finish(message="` (client.py line 70 / 145). -/
def finishMarker : Str := "finish(message=".toList

/-- The literal `"do(action="` (client.py line 70 / 148). -/
def doMarker : Str := "do(action=".toList

/-- `action_markers = ["finish(message=", "do(action="]` (client.py line 70). -/
def actionMarkers : List Str := [finishMarker, doMarker]

/-- The literal `"<answer>"` (client.py line 151). -/
def answerOpen : Str := "<answer>".toList

/-- The literal `"</answer>"` (client.py line 154). -/
def answerClose : Str := "</answer>".toList

/-- The literal `"<think>"` (client.py line 153). -/
def thinkOpen : Str := "<think>".toList

/-- The literal `"</think>"` (client.py line 153). -/
def thinkClose : Str := "</think>".toList

/-- `ModelClient._parse_response` (client.py lines 143-156). -/
def parseResponse (content : Str) : Str × Str :=
  if occurs finishMarker content then
    let p := (splitOnceAux finishMarker content).getD (content, [])
    (strip p.1, finishMarker ++ p.2)
  else if occurs doMarker content then
    let p := (splitOnceAux doMarker content).getD (content, [])
    (strip p.1, doMarker ++ p.2)
  else if occurs answerOpen content then
    let p := (splitOnceAux answerOpen content).getD (content, [])
    (strip (replaceAll thinkClose [] (replaceAll thinkOpen [] p.1)),
     strip (replaceAll answerClose [] p.2))
  else ([], content)

/-- One streamed delta: `reasoning_content`, `reasoning` and `content`
attributes read via `getattr` (client.py lines 80, 89). -/
structure DeltaMsg where
  reasoning_content : Option Str
  reasoning : Option Str
  content : Option Str
deriving DecidableEq

/-- One streamed chunk; the code skips chunks with empty `choices` and
reads `choices[0].delta` otherwise (client.py lines 74-77). -/
structure StreamChunk where
  choices : List DeltaMsg
deriving DecidableEq

/-- Python `a or b` on optional strings (`a` when truthy, else `b`),
as used for `reasoning_content or reasoning` (client.py line 80). -/
def pyOr (a b : Option Str) : Option Str :=
  match a with
  | some s => if s.isEmpty then b else some s
  | none => b

/-- Mutable loop state of `ModelClient.request` (client.py lines 46-122).
Wall-clock instants are abstracted to the Booleans that decide control flow:
`first_token_received` doubles as "`time_to_first_token` is not None", and
`tteSet` records that `time_to_thinking_end` was assigned.  `printedThinking`
is the text echoed by the content-path prints (lines 105, 106, 118, 122) and
`printedReasoning` the text echoed by the reasoning print (line 86). -/
structure SplitState where
  raw_content : Str
  raw_reasoning : Str
  buffer : Str
  in_action_phase : Bool
  first_token_received : Bool
  tteSet : Bool
  printedThinking : Str
  printedReasoning : Str
deriving DecidableEq

def initSplitState : SplitState :=
  { raw_content := [], raw_reasoning := [], buffer := [],
    in_action_phase := false, first_token_received := false, tteSet := false,
    printedThinking := [], printedReasoning := [] }

/-- The body of the `for chunk in stream` loop for one delta
(client.py lines 79-119). -/
def processDelta (st : SplitState) (d : DeltaMsg) : SplitState :=
  let st1 :=
    match pyOr d.reasoning_content d.reasoning with
    | some r =>
      if r.isEmpty then st
      else
        { st with first_token_received := true,
                  raw_reasoning := st.raw_reasoning ++ r,
                  printedReasoning := st.printedReasoning ++ r }
    | none => st
  match d.content with
  | none => st1
  | some c =>
    let st2 := { st1 with first_token_received := true,
                          raw_content := st1.raw_content ++ c }
    if st2.in_action_phase then st2
    else
      let buf := st2.buffer ++ c
      match actionMarkers.find? (fun mk => occurs mk buf) with
      | some mk =>
        let tp := ((splitOnceAux mk buf).getD (buf, [])).1
        { st2 with
          buffer := buf,
          in_action_phase := true,
          tteSet := true,
          printedThinking :=
            (if (strip tp).isEmpty then st2.printedThinking
             else st2.printedThinking ++ tp) ++ ['\n'] }
      | none =>
        if actionMarkers.any (fun mk => (pyTail mk.length buf).isPrefixOf mk) then
          { st2 with buffer := buf }
        else
          { st2 with buffer := [], printedThinking := st2.printedThinking ++ buf }

/-- One iteration of `for chunk in stream` (client.py lines 73-77). -/
def processChunk (st : SplitState) (ch : StreamChunk) : SplitState :=
  match ch.choices with
  | [] => st
  | d :: _ => processDelta st d

/-- The whole streaming loop of `ModelClient.request`. -/
def runStream (chunks : List StreamChunk) : SplitState :=
  chunks.foldl processChunk initSplitState

/-- `ModelResponse` restricted to the fields the claims are about
(client.py lines 27-36). -/
structure ModelResponse where
  thinking : Str
  action : Str
  raw_content : Str
deriving DecidableEq

/-- `ModelClient.request` after the loop (client.py lines 121-141): final
buffer flush, `_parse_response`, reasoning override, metrics print, return.
The result is `some (response, echoed thinking text)`; `none` models the
`TypeError` raised at the metrics print (line 132) when the stream delivered
no token, so `time_to_first_token` is still `None` and float formatting
of `None` fails. -/
def request (chunks : List StreamChunk) : Option (ModelResponse × Str) :=
  let st := runStream chunks
  let printed :=
    if !st.buffer.isEmpty && !st.in_action_phase then st.printedThinking ++ st.buffer
    else st.printedThinking
  let pr := parseResponse st.raw_content
  let thinking :=
    if (strip st.raw_reasoning).isEmpty then pr.1 else strip st.raw_reasoning
  if st.first_token_received then
    some ({ thinking := thinking, action := pr.2, raw_content := st.raw_content }, printed)
  else none

/-- A chunk carrying only a content fragment. -/
def contentChunk (s : Str) : StreamChunk :=
  { choices := [{ reasoning_content := none, reasoning := none, content := some s }] }

/-- Concatenation of a list of strings. -/
def concatStrs : List Str → Str
  | [] => []
  | s :: t => s ++ concatStrs t

/-- The reasoning text one delta contributes to `raw_reasoning`: the value of
`reasoning_content or reasoning` when truthy, else nothing (client.py
lines 80-85). -/
def deltaReasoningPiece (d : DeltaMsg) : Str :=
  match pyOr d.reasoning_content d.reasoning with
  | some r => r
  | none => []

/-- The reasoning text one chunk contributes (empty for choice-less chunks). -/
def chunkReasoningPiece (ch : StreamChunk) : Str :=
  match ch.choices with
  | [] => []
  | d :: _ => deltaReasoningPiece d

/-- Concatenation of all reasoning fragments delivered by the stream. -/
def reasoningConcat (chunks : List StreamChunk) : Str :=
  concatStrs (chunks.map chunkReasoningPiece)

/-!
Part 2 models `src/phone_agent/asr.py`.

The device/service side effects of the shutdown path are embedded as an
explicit effect trace (`Eff`), and the drive loop of `transcribe_once`
(lines 158-178) as a function of a script of per-iteration environment
events: whether the SIGINT handler ran before the loop-condition check or
during the read/send, whether the service delivered `on_error`, and how the
block read / `send_audio_frame` call went.
-/

/-- The device/stop fields of the session `state` dict (asr.py lines 48-57):
`micOpen` models `state["mic"] is not None`, `streamOpen` models
`state["stream"] is not None`, `stopped` models `state["stopped"]`. -/
structure DevState where
  micOpen : Bool
  streamOpen : Bool
  stopped : Bool
deriving DecidableEq

/-- Observable shutdown side effects. -/
inductive Eff where
  | streamStopped
  | streamClosed
  | micTerminated
  | recStopCalled
  | metricsEmitted
deriving DecidableEq

/-- `Callback.on_open` (asr.py lines 60-70): acquires the audio device. -/
def onOpenDev (s : DevState) : DevState × List Eff :=
  ({ s with micOpen := true, streamOpen := true }, [])

/-- `Callback.on_close` (asr.py lines 72-91): stops and closes the stream
and terminates the mic, each guarded by an `is not None` test, then clears
both fields. -/
def onCloseDev (s : DevState) : DevState × List Eff :=
  ({ s with streamOpen := false, micOpen := false },
   (if s.streamOpen then [Eff.streamStopped, Eff.streamClosed] else [])
     ++ (if s.micOpen then [Eff.micTerminated] else []))

/-- `_stop_recognition` (asr.py lines 133-145): guarded by `stopped`, then
stops the service connection and emits the delivery metrics. -/
def stopRecognition (s : DevState) : DevState × List Eff :=
  if s.stopped then (s, [])
  else ({ s with stopped := true }, [Eff.recStopCalled, Eff.metricsEmitted])

/-- The complete shutdown path of one session: `_stop_recognition` followed
by the service-driven `on_close` device release. -/
def stopPath (s : DevState) : DevState × List Eff :=
  let r1 := stopRecognition s
  let r2 := onCloseDev r1.1
  (r2.1, r1.2 ++ r2.2)

/-- `n` consecutive invocations of the shutdown path, with the emitted
effects concatenated in order. -/
def stopPathN : Nat → DevState → DevState × List Eff
  | 0, s => (s, [])
  | Nat.succ n, s =>
    let r1 := stopPath s
    let r2 := stopPathN n r1.1
    (r2.1, r1.2 ++ r2.2)

/-- The session operations that mutate the device/stop fields. -/
inductive SessOp where
  | opOpen
  | opClose
  | opStopRec
deriving DecidableEq

def applyOp (s : DevState) : SessOp → DevState × List Eff
  | SessOp.opOpen => onOpenDev s
  | SessOp.opClose => onCloseDev s
  | SessOp.opStopRec => stopRecognition s

/-- One read/send attempt inside the drive loop (asr.py lines 160-171):
`noStream` is the `stream is None` sleep-continue; `readSend e` is a
successful block read whose `send_audio_frame` either succeeds (`e = none`)
or raises an exception with message `m` (`e = some m`); `readFail m` is
`stream.read` itself raising with message `m`. -/
inductive IterIO where
  | noStream
  | readSend : Option Str → IterIO
  | readFail : Str → IterIO
deriving DecidableEq

/-- Environment events of one pass of the drive loop. `sigBefore` / `sigDuring`
say whether the SIGINT handler (asr.py lines 149-152, which only sets
`state["stopping"]`) ran before the `while` condition check / during the
read-send body; `errDuring` is an `on_error` callback (lines 96-101, which
overwrites `state["error"]`) delivered before the post-send error check. -/
structure DriveStep where
  sigBefore : Bool
  sigDuring : Bool
  errDuring : Option Str
  io : IterIO
deriving DecidableEq

/-- The `stopping` / `error` entries of the `state` dict as the drive loop
observes them. -/
structure LoopState where
  stopping : Bool
  error : Option Str
deriving DecidableEq

/-- How the `try` body of asr.py lines 158-173 ends: `finished` means the
`while` condition went false or a `break` ran; `raised m` means an exception
with message `m` propagates out of the loop; `pending` means the event
script ended while the loop would still be running. -/
inductive LoopExit where
  | finished
  | raised : Str → LoopExit
  | pending
deriving DecidableEq

def sigApply (b : Bool) (st : LoopState) : LoopState :=
  if b then { st with stopping := true } else st

def errApply (e : Option Str) (st : LoopState) : LoopState :=
  match e with
  | some m => { st with error := some m }
  | none => st

/-- The literal `"stopped"` tested against the lowered exception text
(asr.py line 169). -/
def stoppedWord : Str := "stopped".toList

/-- The drive loop of `transcribe_once` (asr.py lines 158-173).  Each step
applies the session's signal handler and `on_error` effects at the points
the loop can observe them, then performs one read/send attempt.  A send
failure is swallowed (`break`) only when `state["stopping"]` is set and the
lowered exception message contains `"stopped"` (line 169); any other
exception propagates. -/
def driveLoop : LoopState → List DriveStep → LoopExit × LoopState
  | st, [] => (if st.stopping then LoopExit.finished else LoopExit.pending, st)
  | st, step :: rest =>
    let st0 := sigApply step.sigBefore st
    if st0.stopping then (LoopExit.finished, st0)
    else
      let st1 := errApply step.errDuring (sigApply step.sigDuring st0)
      match step.io with
      | IterIO.noStream => driveLoop st1 rest
      | IterIO.readFail m => (LoopExit.raised m, st1)
      | IterIO.readSend sendErr =>
        match sendErr with
        | some m =>
          if st1.stopping && occurs stoppedWord (lowerStr m) then
            (LoopExit.finished, st1)
          else (LoopExit.raised m, st1)
        | none =>
          if st1.error.isSome then (LoopExit.finished, st1)
          else driveLoop st1 rest

/-- Python `" ".join(xs)`. -/
def joinSpace : List Str → Str
  | [] => []
  | [s] => s
  | s :: t => s ++ ' ' :: joinSpace t

/-- The transcript built at asr.py lines 183-186: sentences joined by
single spaces and stripped, falling back to the stripped last partial. -/
def transcript (sentences : List Str) (lastText : Str) : Str :=
  let t := strip (joinSpace sentences)
  if t.isEmpty then strip lastText else t

/-- How `transcribe_once` ends toward its caller. -/
inductive ASRResult where
  | ok : Str → ASRResult
  | asrFailed : Str → ASRResult
  | exn : Str → ASRResult
deriving DecidableEq

/-- The observable outcome of one `transcribe_once` call: the returned value
or raised error, whether the previously installed SIGINT handler was
restored, and whether `_stop_recognition` ran. -/
structure TranscribeOutcome where
  result : ASRResult
  handlerRestored : Bool
  stopped : Bool
deriving DecidableEq

/-- `transcribe_once` from handler installation onward (asr.py lines
147-186).  `startErr = some m` models `recognition.start()` (line 155, which
sits after `signal.signal(...)` and before the `try`) raising with message
`m`: the exception propagates before the `try` / `finally` is entered, so
neither the handler restore nor `_stop_recognition` runs.  Otherwise the
loop runs; the `finally` (lines 176-178) restores the handler and invokes
`_stop_recognition` on every path out of it, after which a recorded
service error is raised as `ASR failed` (lines 180-181) and any loop
exception keeps propagating.  `none` stands for a script that ends with the
loop still running. -/
def transcribeOnce (startErr : Option Str) (steps : List DriveStep)
    (st0 : LoopState) (sentences : List Str) (lastText : Str) :
    Option TranscribeOutcome :=
  match startErr with
  | some m =>
    some { result := ASRResult.exn m, handlerRestored := false, stopped := false }
  | none =>
    match driveLoop st0 steps with
    | (LoopExit.pending, _) => none
    | (LoopExit.raised m, _) =>
      some { result := ASRResult.exn m, handlerRestored := true, stopped := true }
    | (LoopExit.finished, st) =>
      some { result :=
               match st.error with
               | some e => ASRResult.asrFailed e
               | none => ASRResult.ok (transcript sentences lastText),
             handlerRestored := true, stopped := true }

/-!
Theorems.  Helper lemmas come first; the claim theorems follow, each under a
doc comment naming its claim.
-/

theorem strip_nil_eq : strip [] = [] := rfl

/-- A string decomposed around `pat` contains `pat`. -/
theorem occurs_decomp (pat pre post : Str) (hne : pat ≠ []) :
    occurs pat (pre ++ pat ++ post) = true := by
  induction pre with
  | nil =>
    obtain ⟨a, t, rfl⟩ : ∃ a t, pat = a :: t := by
      cases pat with
      | nil => exact absurd rfl hne
      | cons a t => exact ⟨a, t, rfl⟩
    simp only [List.nil_append, List.cons_append, occurs, List.append_eq, Bool.or_eq_true]
    left
    rw [List.isPrefixOf_iff_prefix]
    exact ⟨post, by simp⟩
  | cons c pre ih =>
    simp only [List.cons_append, occurs, Bool.or_eq_true]
    right
    exact ih

/-- `splitOnceAux` recovers a decomposition at the first occurrence. -/
theorem splitOnceAux_first (pat pre post : Str) (hne : pat ≠ [])
    (hfirst : ∀ k, k < pre.length → pat.isPrefixOf ((pre ++ pat ++ post).drop k) = false) :
    splitOnceAux pat (pre ++ pat ++ post) = some (pre, post) := by
  induction pre with
  | nil =>
    obtain ⟨a, t, rfl⟩ : ∃ a t, pat = a :: t := by
      cases pat with
      | nil => exact absurd rfl hne
      | cons a t => exact ⟨a, t, rfl⟩
    have hp : (a :: t).isPrefixOf (a :: (t ++ post)) = true := by
      rw [List.isPrefixOf_iff_prefix]
      exact ⟨post, by simp⟩
    simp only [List.nil_append, List.cons_append, splitOnceAux, List.append_eq, hp, if_true]
    simp [List.drop_succ_cons, List.drop_left]
  | cons c pre ih =>
    have hf0 : pat.isPrefixOf (c :: (pre ++ pat ++ post)) = false := by
      have := hfirst 0 (by simp)
      simpa using this
    have hrest : ∀ k, k < pre.length →
        pat.isPrefixOf ((pre ++ pat ++ post).drop k) = false := by
      intro k hk
      have := hfirst (k + 1) (by simpa using Nat.succ_lt_succ hk)
      simpa [List.drop_succ_cons] using this
    simp only [List.cons_append, splitOnceAux, List.append_eq, hf0]
    rw [ih hrest]
    simp

/-- Converts the executable first-occurrence check into its pointwise form. -/
theorem all_range_first (pat s : Str) (n : Nat)
    (h : (List.range n).all (fun k => !(pat.isPrefixOf (s.drop k))) = true) :
    ∀ k, k < n → pat.isPrefixOf (s.drop k) = false := by
  intro k hk
  have := List.all_eq_true.mp h k (List.mem_range.mpr hk)
  simpa using this

/-- C1.  The claim states that the thinking-output observer stream never
contains a partial fragment of a marker literal when a fragment boundary
falls inside the marker.  The code violates this: on the fragment sequence
`["a do(", "action=x)"]` the possible-marker-start check of client.py line
116 only compares the final `len(marker)` characters of the buffer against
each marker, so after the first fragment the echoed thinking text is exactly
`"a do("`, which contains the proper marker fragment `"do("`, even though
the full content places `"do(action=x)"` in the action part. -/
theorem c1_marker_leak :
    (runStream [contentChunk ("a do(".toList)]).printedThinking = "a do(".toList
    ∧ occurs ("do(".toList) (runStream [contentChunk ("a do(".toList)]).printedThinking = true
    ∧ ("do(".toList).isPrefixOf doMarker = true
    ∧ "do(".toList ≠ doMarker
    ∧ parseResponse (concatStrs ["a do(".toList, "action=x)".toList])
        = ("a".toList, "do(action=x)".toList) := by
  decide

/-- C2.  The claim states that `request` never raises for any input stream
shape.  The code violates this for a stream that delivers no delta at all:
`time_to_first_token` is then still `None` and the metrics print at
client.py line 132 formats it with `.3f`, raising `TypeError` (modelled by
`request` returning `none`).  All three zero-fragment stream shapes below
hit it. -/
theorem c2_empty_stream_failure :
    request [] = none
    ∧ request [{ choices := [] }] = none
    ∧ request [{ choices := [{ reasoning_content := none, reasoning := none,
                               content := none }] }] = none :=
  ⟨rfl, rfl, rfl⟩

/-- C4 counterexample.  In `"do(action=a)finish(message=b)"` the marker
`"do(action="` occurs at offset 0 (it is a prefix of the content), the
lowest possible offset, so the claimed lowest-offset rule would split there
and leave the whole content as action text.  `_parse_response` instead
splits at `"finish(message="` (declaration order first), returning thinking
`"do(action=a)"`. -/
theorem c4_lowest_offset_counterexample :
    doMarker.isPrefixOf ("do(action=a)finish(message=b)".toList) = true
    ∧ parseResponse ("do(action=a)finish(message=b)".toList)
        = ("do(action=a)".toList, "finish(message=b)".toList)
    ∧ parseResponse ("do(action=a)finish(message=b)".toList)
        ≠ ([], "do(action=a)finish(message=b)".toList) := by
  decide

/-- C4 (amended).  `_parse_response` chooses the split marker by declaration
order, not by offset: if `"finish(message="` occurs anywhere it wins, and
only otherwise does `"do(action="` win; within the chosen marker the first
(lowest-offset) occurrence is used.  The hypotheses present the content as a
decomposition around the chosen marker's first occurrence. -/
theorem c4_declaration_order_amended (content pre post : Str) :
    ((content = pre ++ finishMarker ++ post ∧
      (List.range pre.length).all
        (fun k => !(finishMarker.isPrefixOf (content.drop k))) = true) →
      parseResponse content = (strip pre, finishMarker ++ post))
    ∧ ((occurs finishMarker content = false ∧
        content = pre ++ doMarker ++ post ∧
        (List.range pre.length).all
          (fun k => !(doMarker.isPrefixOf (content.drop k))) = true) →
      parseResponse content = (strip pre, doMarker ++ post)) := by
  constructor
  · rintro ⟨rfl, hall⟩
    have hocc := occurs_decomp finishMarker pre post (by decide)
    have hsp := splitOnceAux_first finishMarker pre post (by decide)
      (all_range_first _ _ _ hall)
    simp only [parseResponse, hocc, hsp, Option.getD_some, if_true]
  · rintro ⟨hf, rfl, hall⟩
    have hocc := occurs_decomp doMarker pre post (by decide)
    have hsp := splitOnceAux_first doMarker pre post (by decide)
      (all_range_first _ _ _ hall)
    simp only [parseResponse, hf, hocc, hsp, Option.getD_some]
    simp

theorem c4_declaration_order_amended_witness :
    parseResponse ("think finish(message=hi)".toList)
      = ("think".toList, "finish(message=hi)".toList)
    ∧ parseResponse ("plan do(action=tap)".toList)
      = ("plan".toList, "do(action=tap)".toList) := by
  constructor
  · exact ((c4_declaration_order_amended ("think finish(message=hi)".toList)
      ("think ".toList) ("hi)".toList)).1 ⟨by decide, by decide⟩).trans (by decide)
  · exact ((c4_declaration_order_amended ("plan do(action=tap)".toList)
      ("plan ".toList) ("tap)".toList)).2 ⟨by decide, by decide, by decide⟩).trans (by decide)

/-- C5.  When neither primary marker occurs in the content: if `"<answer>"`
occurs, the result is the text before its first occurrence with `"<think>"`
then `"</think>"` removed and stripped, paired with the text after it with
`"</answer>"` removed and stripped; if `"<answer>"` does not occur either,
the result is empty thinking and the whole raw content as action. -/
theorem c5_secondary_fallback (content pre post : Str)
    (hf : occurs finishMarker content = false)
    (hd : occurs doMarker content = false) :
    ((content = pre ++ answerOpen ++ post ∧
      (List.range pre.length).all
        (fun k => !(answerOpen.isPrefixOf (content.drop k))) = true) →
      parseResponse content =
        (strip (replaceAll thinkClose [] (replaceAll thinkOpen [] pre)),
         strip (replaceAll answerClose [] post)))
    ∧ (occurs answerOpen content = false →
      parseResponse content = ([], content)) := by
  constructor
  · rintro ⟨hdec, hall⟩
    have hocc : occurs answerOpen content = true := by
      rw [hdec]; exact occurs_decomp answerOpen pre post (by decide)
    have hsp : splitOnceAux answerOpen content = some (pre, post) := by
      rw [hdec]
      exact splitOnceAux_first answerOpen pre post (by decide)
        (by rw [← hdec]; exact all_range_first _ _ _ hall)
    simp only [parseResponse, hf, hd, hocc, hsp, Option.getD_some]
    simp
  · intro ha
    simp only [parseResponse, hf, hd, ha]
    simp

theorem c5_secondary_fallback_witness :
    parseResponse ("<think>ok</think><answer>tap(x=10,y=20)</answer>".toList)
      = ("ok".toList, "tap(x=10,y=20)".toList)
    ∧ parseResponse ("just talking, no action".toList)
      = ([], "just talking, no action".toList) := by
  constructor
  · exact ((c5_secondary_fallback
      ("<think>ok</think><answer>tap(x=10,y=20)</answer>".toList)
      ("<think>ok</think>".toList) ("tap(x=10,y=20)</answer>".toList)
      (by decide) (by decide)).1 ⟨by decide, by decide⟩).trans (by decide)
  · exact (c5_secondary_fallback ("just talking, no action".toList) [] []
      (by decide) (by decide)).2 (by decide)

/-- Projections of one content-only chunk step: `raw_content` grows by the
fragment, `raw_reasoning` is untouched, and the first-token flag is set. -/
theorem processChunk_content_proj (st : SplitState) (c : Str) :
    (processChunk st (contentChunk c)).raw_content = st.raw_content ++ c ∧
    (processChunk st (contentChunk c)).raw_reasoning = st.raw_reasoning ∧
    (processChunk st (contentChunk c)).first_token_received = true := by
  dsimp only [processChunk, contentChunk, processDelta, pyOr]
  split
  · exact ⟨rfl, rfl, rfl⟩
  · split
    · exact ⟨rfl, rfl, rfl⟩
    · split
      · exact ⟨rfl, rfl, rfl⟩
      · exact ⟨rfl, rfl, rfl⟩

/-- Folding content-only chunks accumulates exactly their concatenation. -/
theorem foldl_content_proj (frs : List Str) (st : SplitState) :
    (List.foldl processChunk st (frs.map contentChunk)).raw_content
        = st.raw_content ++ concatStrs frs ∧
    (List.foldl processChunk st (frs.map contentChunk)).raw_reasoning
        = st.raw_reasoning ∧
    (List.foldl processChunk st (frs.map contentChunk)).first_token_received
        = (st.first_token_received || !frs.isEmpty) := by
  induction frs generalizing st with
  | nil => simp [concatStrs]
  | cons f rest ih =>
    obtain ⟨h1, h2, h3⟩ := processChunk_content_proj st f
    obtain ⟨g1, g2, g3⟩ := ih (processChunk st (contentChunk f))
    refine ⟨?_, ?_, ?_⟩
    · simp only [List.map_cons, List.foldl_cons, g1, h1, concatStrs, List.append_assoc]
    · simp only [List.map_cons, List.foldl_cons, g2, h2]
    · simp only [List.map_cons, List.foldl_cons, g3, h3]
      simp

/-- `foldl_content_proj` specialised to a whole run from the initial state. -/
theorem runStream_content_proj (frs : List Str) :
    (runStream (frs.map contentChunk)).raw_content = concatStrs frs ∧
    (runStream (frs.map contentChunk)).raw_reasoning = [] ∧
    (runStream (frs.map contentChunk)).first_token_received = !frs.isEmpty := by
  obtain ⟨h1, h2, h3⟩ := foldl_content_proj frs initSplitState
  exact ⟨by simpa [runStream, initSplitState] using h1,
         by simpa [runStream, initSplitState] using h2,
         by simpa [runStream, initSplitState] using h3⟩

/-- C3.  Fragmentation-invariance of the final split: for a string `S`
containing a marker, feeding any fragmentation of `S` as content fragments
yields the same final thinking/action pair in the returned response as
feeding `S` whole.  This holds because the final pair is computed from
`raw_content`, which accumulates the exact concatenation of the fragments
(client.py line 95), by `_parse_response` (line 125). -/
theorem c3_fragmentation_invariance (S : Str) (frs : List Str)
    (hne : frs ≠ []) (hS : concatStrs frs = S)
    (hm : (occurs finishMarker S || occurs doMarker S) = true) :
    Option.map (fun p => (p.1.thinking, p.1.action)) (request (frs.map contentChunk))
      = Option.map (fun p => (p.1.thinking, p.1.action)) (request [contentChunk S]) := by
  have hfe : frs.isEmpty = false := by
    cases frs with
    | nil => exact absurd rfl hne
    | cons a t => rfl
  obtain ⟨a1, a2, a3⟩ := runStream_content_proj frs
  obtain ⟨b1, b2, b3⟩ := runStream_content_proj [S]
  rw [hS] at a1
  rw [hfe] at a3
  simp only [List.map_cons, List.map_nil] at b1 b2 b3
  simp only [concatStrs, List.append_nil] at b1
  simp only [List.isEmpty_cons, Bool.not_false] at a3 b3
  simp only [request, a1, a2, a3, b1, b2, b3, strip_nil_eq]
  simp

theorem c3_fragmentation_invariance_witness :
    Option.map (fun p => (p.1.thinking, p.1.action))
        (request (["ab ".toList, "do(act".toList, "ion=x)".toList].map contentChunk))
      = Option.map (fun p => (p.1.thinking, p.1.action))
          (request [contentChunk ("ab do(action=x)".toList)]) :=
  c3_fragmentation_invariance ("ab do(action=x)".toList)
    ["ab ".toList, "do(act".toList, "ion=x)".toList]
    (by decide) (by decide) (by decide)

/-- One delta appends exactly its reasoning piece to `raw_reasoning`. -/
theorem processDelta_reasoning_proj (st : SplitState) (d : DeltaMsg) :
    (processDelta st d).raw_reasoning = st.raw_reasoning ++ deltaReasoningPiece d := by
  rcases hro : pyOr d.reasoning_content d.reasoning with _ | r <;>
    rcases hc : d.content with _ | c <;>
      simp only [processDelta, deltaReasoningPiece, hro, hc] <;>
        (repeat' split) <;> simp_all [List.isEmpty_iff]

/-- Chunk-level version of `processDelta_reasoning_proj`. -/
theorem processChunk_reasoning_proj (st : SplitState) (ch : StreamChunk) :
    (processChunk st ch).raw_reasoning = st.raw_reasoning ++ chunkReasoningPiece ch := by
  rcases ch with ⟨choices⟩
  cases choices with
  | nil => simp [processChunk, chunkReasoningPiece]
  | cons d rest =>
    simpa [processChunk, chunkReasoningPiece] using processDelta_reasoning_proj st d

/-- The whole stream accumulates the concatenated reasoning pieces. -/
theorem foldl_reasoning_proj (chunks : List StreamChunk) (st : SplitState) :
    (List.foldl processChunk st chunks).raw_reasoning
      = st.raw_reasoning ++ reasoningConcat chunks := by
  induction chunks generalizing st with
  | nil => simp [reasoningConcat, concatStrs]
  | cons ch rest ih =>
    simp only [List.foldl_cons, ih, processChunk_reasoning_proj, reasoningConcat,
      List.map_cons, concatStrs, List.append_assoc]

/-- One delta either leaves `raw_reasoning` and the first-token flag alone
or sets the first-token flag. -/
theorem processDelta_ftr_cases (st : SplitState) (d : DeltaMsg) :
    ((processDelta st d).raw_reasoning = st.raw_reasoning ∧
     (processDelta st d).first_token_received = st.first_token_received) ∨
    (processDelta st d).first_token_received = true := by
  rcases hro : pyOr d.reasoning_content d.reasoning with _ | r <;>
    rcases hc : d.content with _ | c <;>
      simp only [processDelta, hro, hc] <;>
        (repeat' split) <;>
          first
            | exact Or.inl ⟨rfl, rfl⟩
            | exact Or.inr rfl
            | exact Or.inl ⟨trivial, trivial⟩

/-- Whenever `raw_reasoning` is non-empty, a first token has been seen. -/
theorem processChunk_ftr_inv (st : SplitState) (ch : StreamChunk)
    (h : st.raw_reasoning ≠ [] → st.first_token_received = true) :
    (processChunk st ch).raw_reasoning ≠ [] →
      (processChunk st ch).first_token_received = true := by
  intro hx
  rcases ch with ⟨choices⟩
  cases choices with
  | nil => exact h hx
  | cons d rest =>
    rcases processDelta_ftr_cases st d with ⟨hr, hf⟩ | hf
    · show (processDelta st d).first_token_received = true
      rw [hf]
      apply h
      rw [← hr]
      exact hx
    · exact hf

/-- Stream-level version of `processChunk_ftr_inv`. -/
theorem foldl_ftr_inv (chunks : List StreamChunk) (st : SplitState)
    (h : st.raw_reasoning ≠ [] → st.first_token_received = true) :
    (List.foldl processChunk st chunks).raw_reasoning ≠ [] →
      (List.foldl processChunk st chunks).first_token_received = true := by
  induction chunks generalizing st with
  | nil => simpa using h
  | cons ch rest ih =>
    simp only [List.foldl_cons]
    exact ih _ (processChunk_ftr_inv st ch h)

/-- C6.  When the reasoning sub-stream delivers fragments whose concatenation
is non-empty after trimming, the thinking field of the returned response is
that trimmed concatenation, regardless of the content-based split
(client.py lines 128-129). -/
theorem c6_reasoning_overrides (chunks : List StreamChunk)
    (h : strip (reasoningConcat chunks) ≠ []) :
    Option.map (fun p => p.1.thinking) (request chunks)
      = some (strip (reasoningConcat chunks)) := by
  have hrr : (runStream chunks).raw_reasoning = reasoningConcat chunks := by
    have := foldl_reasoning_proj chunks initSplitState
    simpa [runStream, initSplitState] using this
  have hne : reasoningConcat chunks ≠ [] := by
    intro h0
    exact h (by rw [h0]; rfl)
  have hftr : (runStream chunks).first_token_received = true := by
    have hinv : initSplitState.raw_reasoning ≠ [] →
        initSplitState.first_token_received = true := by
      intro hx
      exact absurd (rfl : initSplitState.raw_reasoning = []) hx
    have := foldl_ftr_inv chunks initSplitState hinv
    simp only [runStream]
    exact this (by rw [show (List.foldl processChunk initSplitState chunks).raw_reasoning
      = reasoningConcat chunks from hrr]; exact hne)
  have hstripne : (strip (runStream chunks).raw_reasoning).isEmpty = false := by
    rw [hrr]
    cases hh : (strip (reasoningConcat chunks)).isEmpty
    · rfl
    · exact absurd (List.isEmpty_iff.mp hh) h
  simp only [request, hftr, hstripne]
  simp [hrr]

theorem c6_reasoning_overrides_witness :
    Option.map (fun p => p.1.thinking)
        (request [{ choices := [{ reasoning_content := some ("hmm ".toList),
                                  reasoning := none,
                                  content := some ("do(action=x)".toList) }] }])
      = some ("hmm".toList) :=
  (c6_reasoning_overrides
    [{ choices := [{ reasoning_content := some ("hmm ".toList),
                     reasoning := none,
                     content := some ("do(action=x)".toList) }] }]
    (by decide)).trans (by decide)

/-- After one pass of the shutdown path the device is released and the
session is stopped, whatever the starting state. -/
theorem stopPath_state (s : DevState) :
    (stopPath s).1 = { micOpen := false, streamOpen := false, stopped := true } := by
  rcases s with ⟨m, so, sp⟩
  cases sp <;> rfl

theorem stopPath_fixedpoint :
    stopPath { micOpen := false, streamOpen := false, stopped := true }
      = ({ micOpen := false, streamOpen := false, stopped := true }, []) := rfl

theorem stopPathN_fixedpoint (n : Nat) :
    stopPathN n { micOpen := false, streamOpen := false, stopped := true }
      = ({ micOpen := false, streamOpen := false, stopped := true }, []) := by
  induction n with
  | zero => rfl
  | succ k ih => simp [stopPathN, stopPath_fixedpoint, ih]

theorem stopPathN_succ_eq (s : DevState) (n : Nat) :
    stopPathN (n + 1) s
      = ({ micOpen := false, streamOpen := false, stopped := true }, (stopPath s).2) := by
  simp [stopPathN, stopPath_state, stopPathN_fixedpoint]

/-- C7.  The shutdown path is idempotent: any `n + 1` consecutive
invocations produce exactly the state and effect trace of one invocation,
the audio device is terminated at most once in the whole trace, and no
modelled session operation ever resets the `stopped` flag once it is true
(asr.py lines 133-145 guard on `stopped`; lines 72-91 guard each release on
the handle being present and then clear it). -/
theorem c7_stop_idempotent (s : DevState) (n : Nat) :
    stopPathN (n + 1) s = stopPathN 1 s
    ∧ (stopPathN (n + 1) s).2.count Eff.micTerminated ≤ 1
    ∧ (∀ op : SessOp, (applyOp { s with stopped := true } op).1.stopped = true) := by
  have h1 := stopPathN_succ_eq s n
  have h0 := stopPathN_succ_eq s 0
  refine ⟨h1.trans h0.symm, ?_, ?_⟩
  · rw [h1]
    rcases s with ⟨m, so, sp⟩
    cases m <;> cases so <;> cases sp <;> decide
  · intro op
    cases op <;> rfl

/-- C8 counterexample.  A send failure whose exception message is `"boom"`,
raised while a stop is already requested (the SIGINT handler ran during the
read/send, so `stopping` is true when the handler examines the exception),
is re-raised by asr.py line 171 because the message does not contain
`"stopped"` — the session surfaces the error instead of ending quietly. -/
theorem c8_swallow_needs_stopped_msg :
    driveLoop { stopping := false, error := none }
        [{ sigBefore := false, sigDuring := true, errDuring := none,
           io := IterIO.readSend (some ("boom".toList)) }]
      = (LoopExit.raised ("boom".toList), { stopping := true, error := none })
    ∧ transcribeOnce none
        [{ sigBefore := false, sigDuring := true, errDuring := none,
           io := IterIO.readSend (some ("boom".toList)) }]
        { stopping := false, error := none } [] []
      = some { result := ASRResult.exn ("boom".toList),
               handlerRestored := true, stopped := true } := by
  decide

/-- C8 (amended).  A block-send failure is swallowed as a benign
cancellation race only when a stop is pending at exception-handling time AND
the lowered exception message contains `"stopped"` (asr.py line 169); in
that case the loop just ends.  A send failure with no stop pending, and a
block-read failure in every case, surface as the session's error, with the
handler restored and the stop path run by the `finally`. -/
theorem c8_amended (st : LoopState) (step : DriveStep) (rest : List DriveStep)
    (m : Str) (sentences : List Str) (lastText : Str)
    (hstop : st.stopping = false) (hsb : step.sigBefore = false) :
    ((step.io = IterIO.readSend (some m) ∧ step.sigDuring = true ∧
      occurs stoppedWord (lowerStr m) = true) →
      (driveLoop st (step :: rest)).1 = LoopExit.finished)
    ∧ ((step.io = IterIO.readSend (some m) ∧ step.sigDuring = false) →
      transcribeOnce none (step :: rest) st sentences lastText =
        some { result := ASRResult.exn m, handlerRestored := true, stopped := true })
    ∧ (step.io = IterIO.readFail m →
      transcribeOnce none (step :: rest) st sentences lastText =
        some { result := ASRResult.exn m, handlerRestored := true, stopped := true }) := by
  rcases step with ⟨sb, sd, ed, io⟩
  dsimp only at hsb
  subst hsb
  refine ⟨?_, ?_, ?_⟩
  · rintro ⟨rfl, rfl, hm2⟩
    cases ed <;> simp [driveLoop, sigApply, errApply, hstop, hm2]
  · rintro ⟨rfl, rfl⟩
    cases ed <;> simp [transcribeOnce, driveLoop, sigApply, errApply, hstop]
  · rintro rfl
    cases sd <;> cases ed <;>
      simp [transcribeOnce, driveLoop, sigApply, errApply, hstop]

theorem c8_amended_witness :
    (driveLoop { stopping := false, error := none }
        [{ sigBefore := false, sigDuring := true, errDuring := none,
           io := IterIO.readSend (some ("task stopped".toList)) }]).1 = LoopExit.finished
    ∧ transcribeOnce none
        [{ sigBefore := false, sigDuring := false, errDuring := none,
           io := IterIO.readFail ("io error".toList) }]
        { stopping := false, error := none } [] []
      = some { result := ASRResult.exn ("io error".toList),
               handlerRestored := true, stopped := true } := by
  constructor
  · exact (c8_amended { stopping := false, error := none }
      { sigBefore := false, sigDuring := true, errDuring := none,
        io := IterIO.readSend (some ("task stopped".toList)) }
      [] ("task stopped".toList) [] [] rfl rfl).1 ⟨rfl, rfl, by decide⟩
  · exact (c8_amended { stopping := false, error := none }
      { sigBefore := false, sigDuring := false, errDuring := none,
        io := IterIO.readFail ("io error".toList) }
      [] ("io error".toList) [] [] rfl rfl).2.2 rfl

/-- C9.  The claim states the previous SIGINT handler is restored on every
exit path.  The code violates this on one path: `recognition.start()`
(asr.py line 155) runs after the session's handler is installed (line 154)
but before the `try`/`finally` (line 158), so an exception raised there
propagates with the handler still installed — modelled by the first
conjunct.  On every path that reaches the drive loop, the `finally`
(line 177) does restore it — the second conjunct. -/
theorem c9_handler_restore_gap :
    transcribeOnce (some ("connection failed".toList)) []
        { stopping := false, error := none } [] []
      = some { result := ASRResult.exn ("connection failed".toList),
               handlerRestored := false, stopped := false }
    ∧ (∀ (steps : List DriveStep) (st0 : LoopState)
         (sentences : List Str) (lastText : Str),
        Option.all (fun o => o.handlerRestored)
          (transcribeOnce none steps st0 sentences lastText) = true) := by
  refine ⟨rfl, ?_⟩
  intro steps st0 sents lt
  rcases h : driveLoop st0 steps with ⟨ex, stf⟩
  cases ex <;> simp [transcribeOnce, h]

/-- C10.  When the loop finishes with a recorded service error,
`transcribe_once` raises the recognition failure (asr.py lines 180-181)
no matter what finalized sentences or partial text were accumulated: the
outcome is the error, never a transcript. -/
theorem c10_error_discards_transcript (steps : List DriveStep) (st0 st : LoopState)
    (sentences : List Str) (lastText : Str) (e : Str)
    (hl : driveLoop st0 steps = (LoopExit.finished, st)) (he : st.error = some e) :
    transcribeOnce none steps st0 sentences lastText =
      some { result := ASRResult.asrFailed e, handlerRestored := true, stopped := true } := by
  simp [transcribeOnce, hl, he]

theorem c10_error_discards_transcript_witness :
    transcribeOnce none
        [{ sigBefore := false, sigDuring := false, errDuring := some ("E1".toList),
           io := IterIO.readSend none }]
        { stopping := false, error := none } ["hello".toList] ("tail".toList)
      = some { result := ASRResult.asrFailed ("E1".toList),
               handlerRestored := true, stopped := true } :=
  c10_error_discards_transcript _ _ { stopping := false, error := some ("E1".toList) }
    ["hello".toList] ("tail".toList) ("E1".toList) (by decide) rfl
